import Mathlib

/-!
Shallow embedding of the ibox message-channel library: the handshake
coordinators (host and client roles), the inbound dispatcher, and the
interface facade (emit, call, on, off, destroy).  The embedding follows
the defensive implementation variant, which the specification adopts as
canonical.  Stateful code is modelled by explicit state passing: each
operation maps a state to a new state together with a list of observable
outputs (posted envelopes, promise settlements, timer cancellations,
handler invocations, diagnostic reports).
-/

namespace IBox

/-- Argument passed as an event name: a string, or any non-string value. -/
inductive EvArg where
  | str : String → EvArg
  | nonStr : EvArg
deriving DecidableEq

/-- Underlying string of an event argument (empty for non-strings). -/
def evString : EvArg → String
  | .str s => s
  | .nonStr => ""

/-- Whitespace-stripping trim, embedding String.prototype.trim: removes
leading and trailing whitespace characters. -/
def jsTrim (s : String) : String :=
  ⟨((s.data.dropWhile Char.isWhitespace).reverse.dropWhile Char.isWhitespace).reverse⟩

/-- Event-name validation from the source: fails unless the argument is a
string whose trim is non-empty; returns the trimmed name (callers in the
source discard the returned value and keep using the original string). -/
def validateEvent : EvArg → Except String String
  | .str s =>
      if jsTrim s = "" then .error "ibox: Event name must be a non-empty string"
      else .ok (jsTrim s)
  | .nonStr => .error "ibox: Event name must be a non-empty string"

/-- Wire envelope.  Each field is optional; `none` models an absent
(undefined) field.  Application payloads are modelled by natural numbers. -/
structure Envelope where
  event : Option String := none
  data : Option Nat := none
  iboxId : Option Nat := none
  iboxResId : Option Nat := none
  iboxError : Option String := none
deriving DecidableEq

/-- Truthiness of an optional number, as JavaScript tests it: present and
non-zero. -/
def truthyN : Option Nat → Bool
  | some n => decide (n ≠ 0)
  | none => false

/-- Truthiness of an optional string: present and non-empty. -/
def truthyS : Option String → Bool
  | some s => decide (s ≠ "")
  | none => false

/-- Handler registry: association list from event name to the list of
registered callback identifiers, both in insertion order (a JS Map of Sets). -/
abbrev Registry := List (String × List Nat)

/-- Lookup in the registry (Map.get). -/
def regGet : Registry → String → Option (List Nat)
  | [], _ => none
  | (k, v) :: rest, e => if k = e then some v else regGet rest e

/-- Key-presence test (Map.has). -/
def regHas (r : Registry) (e : String) : Bool := (regGet r e).isSome

/-- Map.set: replaces the value in place if the key exists, appends otherwise. -/
def regSet : Registry → String → List Nat → Registry
  | [], e, v => [(e, v)]
  | (k, w) :: rest, e, v =>
      if k = e then (e, v) :: rest else (k, w) :: regSet rest e v

/-- Map.delete: removes the (first) entry with the given key. -/
def regDelete : Registry → String → Registry
  | [], _ => []
  | (k, w) :: rest, e => if k = e then rest else (k, w) :: regDelete rest e

/-- Set.add: appends the callback unless it is already a member. -/
def setAdd (l : List Nat) (cb : Nat) : List Nat := if cb ∈ l then l else l ++ [cb]

/-- Result of running a handler: a returned value, or a failure message. -/
inductive HRes where
  | ok : Option Nat → HRes
  | err : String → HRes

/-- Environment assigning behaviour to each callback identifier. -/
abbrev HEnv := Nat → Option Nat → HRes

/-- Settlement outcome of a call's promise. -/
inductive Outcome where
  | resolved : Option Nat → Outcome
  | rejected : String → Outcome
deriving DecidableEq

/-- Observable outputs of one synchronous operation. -/
inductive Output where
  | post : Envelope → Output
  | settle : Nat → Outcome → Output
  | clearTimer : Nat → Output
  | invoke : Nat → Option Nat → Output
  | consoleError : String → String → Output
  | portClose : Output
  | rejectNow : String → Output
  | threw : String → Output
deriving DecidableEq

/-- State of one interface instance: handler registry, pending-call table
(the list of outstanding call ids in insertion order), the call-id counter,
and the destroyed flag. -/
structure IfaceState where
  handlers : Registry
  pendingCalls : List Nat
  callId : Nat
  isDestroyed : Bool
deriving DecidableEq

def MSG_READY : String := "IBOX_READY"
def MSG_PORT : String := "IBOX_PORT"
def DEFAULT_TIMEOUT : Nat := 10000
def MAX_PENDING_CALLS : Nat := 1000

/-- Fire-and-forget dispatch loop: invoke every callback in order; a failing
callback produces a diagnostic report and never stops the loop. -/
def emitAll (henv : HEnv) (d : Option Nat) (ev : String) : List Nat → List Output
  | [] => []
  | cb :: rest =>
      Output.invoke cb d ::
        ((match henv cb d with
          | .ok _ => []
          | .err m => [Output.consoleError ev m]) ++ emitAll henv d ev rest)

/-- Event branch of the dispatcher: with a truthy correlation id, only the
first registered callback runs and exactly one response envelope is posted
(data on success, the failure message otherwise); without one, every
callback runs via the fire-and-forget loop. -/
def recvEvent (henv : HEnv) (s : IfaceState) (e : Envelope) (ev : String) :
    IfaceState × List Output :=
  let cbs := (regGet s.handlers ev).getD []
  if truthyN e.iboxId then
    match cbs with
    | [] => (s, [])
    | cb :: _ =>
        match henv cb e.data with
        | .ok r =>
            (s, [Output.invoke cb e.data,
                 Output.post { iboxResId := e.iboxId, data := r }])
        | .err m =>
            (s, [Output.invoke cb e.data,
                 Output.post { iboxResId := e.iboxId, iboxError := some m }])
  else (s, emitAll henv e.data ev cbs)

/-- Inbound dispatcher (port.onmessage): drops everything once destroyed;
first checks for a response to a pending call (removing the entry, clearing
its timer and settling it), then for an event with registered handlers,
and silently drops anything else. -/
def recv (henv : HEnv) (s : IfaceState) (e : Envelope) : IfaceState × List Output :=
  if s.isDestroyed then (s, [])
  else if truthyN e.iboxResId ∧ e.iboxResId.getD 0 ∈ s.pendingCalls then
    ({ s with pendingCalls := s.pendingCalls.erase (e.iboxResId.getD 0) },
     if truthyS e.iboxError then
       [Output.clearTimer (e.iboxResId.getD 0),
        Output.settle (e.iboxResId.getD 0) (.rejected (e.iboxError.getD ""))]
     else
       [Output.clearTimer (e.iboxResId.getD 0),
        Output.settle (e.iboxResId.getD 0) (.resolved e.data)])
  else if truthyS e.event ∧ regHas s.handlers (e.event.getD "") then
    recvEvent henv s e (e.event.getD "")
  else (s, [])

/-- Timeout callback of a call's timer: deletes the entry and, only if it
was still present, rejects with a message naming the event and the duration. -/
def timerFire (s : IfaceState) (id : Nat) (timeout : Nat) (ev : String) :
    IfaceState × List Output :=
  if id ∈ s.pendingCalls then
    ({ s with pendingCalls := s.pendingCalls.erase id },
     [Output.settle id
        (.rejected ("ibox: Timeout [" ++ ev ++ "] after " ++ toString timeout ++ "ms"))])
  else (s, [])

/-- emit: throws if destroyed, validates the event name, then posts a
fire-and-forget envelope carrying the original (untrimmed) name. -/
def emit (s : IfaceState) (ev : EvArg) (d : Option Nat) : IfaceState × List Output :=
  if s.isDestroyed then (s, [Output.threw "ibox: Instance destroyed"])
  else
    match validateEvent ev with
    | .error m => (s, [Output.threw m])
    | .ok _ => (s, [Output.post { event := some (evString ev), data := d }])

/-- call: rejects if destroyed, rejects busy at capacity, validates the
event name (throwing synchronously on failure), allocates the next id,
registers the pending entry and posts the request.  The sendOk flag models
whether the synchronous post throws; on failure the entry is removed, the
timer cleared and the promise rejected with the send-failed reason. -/
def call (s : IfaceState) (ev : EvArg) (d : Option Nat) (timeout : Nat)
    (sendOk : Bool) : IfaceState × List Output :=
  if s.isDestroyed then (s, [Output.rejectNow "ibox: Instance destroyed"])
  else if MAX_PENDING_CALLS ≤ s.pendingCalls.length then
    (s, [Output.rejectNow "ibox: Busy"])
  else
    match validateEvent ev with
    | .error m => (s, [Output.threw m])
    | .ok _ =>
        if sendOk then
          ({ s with callId := s.callId + 1,
                    pendingCalls := s.pendingCalls ++ [s.callId + 1] },
           [Output.post { event := some (evString ev), data := d,
                          iboxId := some (s.callId + 1) }])
        else
          ({ s with callId := s.callId + 1 },
           [Output.clearTimer (s.callId + 1),
            Output.settle (s.callId + 1) (.rejected "ibox: Send failed")])

/-- Embeds the source's on operation (the name on is reserved in Lean):
validates the event name and that the callback is callable (the destroyed
flag is not checked); registers the callback under the original, untrimmed
name, creating the set lazily. -/
def onEvt (s : IfaceState) (ev : EvArg) (cbCallable : Bool) (cb : Nat) :
    IfaceState × List Output :=
  match validateEvent ev with
  | .error m => (s, [Output.threw m])
  | .ok _ =>
      if cbCallable then
        let cur := (regGet s.handlers (evString ev)).getD []
        ({ s with handlers := regSet s.handlers (evString ev) (setAdd cur cb) }, [])
      else (s, [Output.threw "ibox: Handler must be a function"])

/-- off: no validation and no destroyed check; removes the callback from the
event's set if present and deletes the key once the set is empty. -/
def off (s : IfaceState) (ev : EvArg) (cb : Nat) : IfaceState × List Output :=
  if regHas s.handlers (evString ev) then
    let cur := (regGet s.handlers (evString ev)).getD []
    let next := cur.erase cb
    if next = [] then
      ({ s with handlers := regDelete s.handlers (evString ev) }, [])
    else
      ({ s with handlers := regSet s.handlers (evString ev) next }, [])
  else (s, [])

/-- Settlement outputs produced by destroy, one per pending entry in table
order: clear the timer and reject with the connection-destroyed reason. -/
def destroySettles : List Nat → List Output
  | [] => []
  | i :: rest =>
      Output.clearTimer i ::
        Output.settle i (.rejected "ibox: Connection destroyed") ::
          destroySettles rest

/-- destroy: a no-op when already destroyed; otherwise marks the instance
destroyed, closes the port, rejects every pending call, and clears both the
pending-call table and the handler registry. -/
def destroy (s : IfaceState) : IfaceState × List Output :=
  if s.isDestroyed then (s, [])
  else
    (⟨[], [], s.callId, true⟩,
     Output.portClose :: destroySettles s.pendingCalls)

/-- One atomic synchronous step against an interface instance. -/
inductive Step where
  | recvMsg : Envelope → Step
  | timer : Nat → Nat → String → Step
  | doEmit : EvArg → Option Nat → Step
  | doCall : EvArg → Option Nat → Nat → Bool → Step
  | doOn : EvArg → Bool → Nat → Step
  | doOff : EvArg → Nat → Step
  | doDestroy : Step
deriving DecidableEq

/-- Interpretation of one step. -/
def stepRun (henv : HEnv) (s : IfaceState) : Step → IfaceState × List Output
  | .recvMsg e => recv henv s e
  | .timer id t ev => timerFire s id t ev
  | .doEmit ev d => emit s ev d
  | .doCall ev d t ok => call s ev d t ok
  | .doOn ev c cb => onEvt s ev c cb
  | .doOff ev cb => off s ev cb
  | .doDestroy => destroy s

/-- Interpretation of a sequence of steps, accumulating all outputs. -/
def runTrace (henv : HEnv) : IfaceState → List Step → IfaceState × List Output
  | s, [] => (s, [])
  | s, st :: rest =>
      ((runTrace henv (stepRun henv s st).1 rest).1,
       (stepRun henv s st).2 ++ (runTrace henv (stepRun henv s st).1 rest).2)

/-- Contribution of one output to the settlement count of call id. -/
def settleWeight (id : Nat) : Output → Nat
  | .settle i _ => if i = id then 1 else 0
  | _ => 0

/-- Number of settlements of call id among a list of outputs. -/
def settleCount (id : Nat) (l : List Output) : Nat :=
  (l.map (settleWeight id)).sum

/-- Well-formedness of an instance state: the pending-call table has no
duplicate ids, and every pending id is positive and at most the counter. -/
def wf (s : IfaceState) : Prop :=
  s.pendingCalls.Nodup ∧ ∀ i ∈ s.pendingCalls, 1 ≤ i ∧ i ≤ s.callId

/-- The call id settled by the step itself when the synchronous send fails
(the entry is added and removed within the same synchronous block). -/
def newSettled (st : Step) (s : IfaceState) : Option Nat :=
  match st with
  | .doCall ev _ _ false =>
      if s.isDestroyed = false ∧ s.pendingCalls.length < MAX_PENDING_CALLS ∧
          (validateEvent ev).isOk = true then
        some (s.callId + 1)
      else none
  | _ => none

/-- A call id that can no longer be settled: absent from the table and not
exceeding the counter (so no future call reuses it). -/
def dead (s : IfaceState) (id : Nat) : Prop :=
  id ∉ s.pendingCalls ∧ id ≤ s.callId

/-- Well-formedness of the handler registry: keys are distinct and have
non-empty trim, and every callback set is non-empty and duplicate-free. -/
def wfReg (r : Registry) : Prop :=
  (r.map Prod.fst).Nodup ∧ ∀ p ∈ r, p.2 ≠ [] ∧ jsTrim p.1 ≠ "" ∧ p.2.Nodup

/-- Callback identifier of an invocation output, if any. -/
def invokedCb : Output → Option Nat
  | .invoke cb _ => some cb
  | _ => none

/-- A handler environment in which every callback returns no value. -/
def hEnv0 : HEnv := fun _ _ => HRes.ok none

/-- Fresh interface state, as built right after the handshake. -/
def initState : IfaceState := ⟨[], [], 0, false⟩

/-- An instance state whose pending-call table is at capacity. -/
def fullState : IfaceState :=
  ⟨[], (List.range MAX_PENDING_CALLS).map (· + 1), MAX_PENDING_CALLS, false⟩

/-- A live instance state with one registered handler. -/
def regState : IfaceState := ⟨[("x", [1])], [], 0, false⟩

/-- A live instance state with two handlers registered on one event. -/
def twoHandlerState : IfaceState := ⟨[("x", [1, 2])], [], 0, false⟩

/-- A handler environment in which callback 1 fails and all others return
no value. -/
def hEnvFail1 : HEnv := fun cb _ => if cb = 1 then .err "boom" else .ok none

/-- Settlement of a handshake promise. -/
inductive HandshakeResult where
  | pending
  | resolvedIface
  | rejectedWith : String → HandshakeResult
deriving DecidableEq

/-- Observable outputs of the handshake coordinators. -/
inductive HOut where
  | setTimer : Nat → HOut
  | setRetry : Nat → HOut
  | postToChild : String → String → HOut
  | postToParent : String → String → HOut
  | warn : String → HOut
deriving DecidableEq

def HANDSHAKE_TIMEOUT : Nat := 15000
def RETRY_SPACING : Nat := 200
def MAX_ATTEMPTS : Nat := 60

/-- Host-side handshake coordinator state: the expected origin, whether the
bus listener is attached, whether the overall timer is armed, and the
settlement of the returned promise (none while pending). -/
structure HostState where
  targetOrigin : String
  subscribed : Bool
  timerActive : Bool
  result : HandshakeResult
deriving DecidableEq

/-- host entry point: warns on a missing or wildcard origin; fails at once
when the child surface has no window; otherwise arms the 15000 ms timer and
subscribes to the bus. -/
def hostStart (hasChildWindow : Bool) (targetOrigin : String) :
    HostState × List HOut :=
  let w : List HOut :=
    if targetOrigin = "" ∨ targetOrigin = "*" then
      [HOut.warn "ibox: Insecure \"*\" origin"]
    else []
  if hasChildWindow then
    (⟨targetOrigin, true, true, .pending⟩, w ++ [HOut.setTimer HANDSHAKE_TIMEOUT])
  else
    (⟨targetOrigin, false, false, .rejectedWith "ibox: No iframe"⟩, w)

/-- Host-side bus listener: discards messages on an origin mismatch (unless
wildcard) or a payload other than the ready sentinel; on a valid sentinel it
releases the timer and subscription, transfers the port (the transferErr
argument models the transfer throwing) and settles the promise. -/
def hostBus (st : HostState) (origin payload : String)
    (transferErr : Option String) : HostState × List HOut :=
  if st.subscribed = false then (st, [])
  else if st.targetOrigin ≠ "*" ∧ origin ≠ st.targetOrigin then (st, [])
  else if payload ≠ MSG_READY then (st, [])
  else
    match transferErr with
    | none =>
        ({ st with subscribed := false, timerActive := false,
                   result := .resolvedIface },
         [HOut.postToChild MSG_PORT st.targetOrigin])
    | some m =>
        ({ st with subscribed := false, timerActive := false,
                   result := .rejectedWith m }, [])

/-- Host-side overall timeout callback: if still armed, releases the timer
and the bus subscription and rejects with the host timeout reason. -/
def hostTimeoutFire (st : HostState) : HostState × List HOut :=
  if st.timerActive = true then
    ({ st with subscribed := false, timerActive := false,
               result := .rejectedWith "ibox: Host connection timeout" }, [])
  else (st, [])

/-- Client-side handshake coordinator state. -/
structure ClientState where
  hostOrigin : String
  attempts : Nat
  intervalActive : Bool
  timerActive : Bool
  subscribed : Bool
  result : HandshakeResult
deriving DecidableEq

/-- client entry point: warns on a missing or wildcard origin, arms the
15000 ms overall timer and the 200 ms retry interval, and subscribes. -/
def clientStart (hostOrigin : String) : ClientState × List HOut :=
  let w : List HOut :=
    if hostOrigin = "" ∨ hostOrigin = "*" then
      [HOut.warn "ibox: Insecure \"*\" origin"]
    else []
  (⟨hostOrigin, 0, true, true, true, .pending⟩,
   w ++ [HOut.setTimer HANDSHAKE_TIMEOUT, HOut.setRetry RETRY_SPACING])

/-- One tick of the client retry interval: past the attempt bound it releases
every resource and rejects with the handshake-failed reason; otherwise it
broadcasts the ready sentinel, swallowing a throwing send (sendOk false)
without any further effect. -/
def clientTick (st : ClientState) (sendOk : Bool) : ClientState × List HOut :=
  if st.intervalActive = false then (st, [])
  else if MAX_ATTEMPTS < st.attempts + 1 then
    ({ st with attempts := st.attempts + 1, intervalActive := false,
               timerActive := false, subscribed := false,
               result := .rejectedWith "ibox: Handshake failed" }, [])
  else
    ({ st with attempts := st.attempts + 1 },
     if sendOk then [HOut.postToParent MSG_READY st.hostOrigin] else [])

/-- Client-side bus listener: discards on origin mismatch (unless wildcard),
on a payload other than the port sentinel, or when no port is attached; on a
match it releases the interval, the timer and the subscription and resolves. -/
def clientBus (st : ClientState) (origin payload : String) (hasPort : Bool) :
    ClientState × List HOut :=
  if st.subscribed = false then (st, [])
  else if st.hostOrigin ≠ "*" ∧ origin ≠ st.hostOrigin then (st, [])
  else if payload ≠ MSG_PORT ∨ hasPort = false then (st, [])
  else
    ({ st with intervalActive := false, timerActive := false,
               subscribed := false, result := .resolvedIface }, [])

/-- Client-side overall timeout callback. -/
def clientTimeoutFire (st : ClientState) : ClientState × List HOut :=
  if st.timerActive = true then
    ({ st with intervalActive := false, timerActive := false,
               subscribed := false,
               result := .rejectedWith "ibox: Client connection timeout" }, [])
  else (st, [])

lemma regGet_regSet_self (r : Registry) (e : String) (v : List Nat) :
    regGet (regSet r e v) e = some v := by
  induction r with
  | nil => simp [regSet, regGet]
  | cons p rest ih =>
      obtain ⟨k, w⟩ := p
      by_cases h : k = e <;> simp [regSet, regGet, h, ih]

lemma regGet_regSet_ne (r : Registry) (e : String) (v : List Nat) (e' : String)
    (h : e' ≠ e) : regGet (regSet r e v) e' = regGet r e' := by
  induction r with
  | nil => simp [regSet, regGet, Ne.symm h]
  | cons p rest ih =>
      obtain ⟨k, w⟩ := p
      by_cases hk : k = e
      · subst hk; simp [regSet, regGet, Ne.symm h]
      · by_cases hk2 : k = e' <;> simp [regSet, regGet, hk, hk2, h, ih]

lemma regGet_eq_none_of_not_mem (r : Registry) (e : String)
    (h : e ∉ r.map Prod.fst) : regGet r e = none := by
  induction r with
  | nil => rfl
  | cons p rest ih =>
      obtain ⟨k, w⟩ := p
      simp only [List.map_cons, List.mem_cons] at h
      push_neg at h
      simp [regGet, Ne.symm h.1, ih h.2]

lemma regGet_regDelete_self (r : Registry) (e : String)
    (hnd : (r.map Prod.fst).Nodup) : regGet (regDelete r e) e = none := by
  induction r with
  | nil => rfl
  | cons p rest ih =>
      obtain ⟨k, w⟩ := p
      simp only [List.map_cons, List.nodup_cons] at hnd
      by_cases hk : k = e
      · subst hk
        simpa [regDelete] using regGet_eq_none_of_not_mem rest k hnd.1
      · simp [regDelete, regGet, hk, ih hnd.2]

lemma regGet_regDelete_ne (r : Registry) (e e' : String) (h : e' ≠ e) :
    regGet (regDelete r e) e' = regGet r e' := by
  induction r with
  | nil => rfl
  | cons p rest ih =>
      obtain ⟨k, w⟩ := p
      by_cases hk : k = e
      · subst hk; simp [regDelete, regGet, Ne.symm h]
      · by_cases hk2 : k = e' <;> simp [regDelete, regGet, hk, hk2, h, ih]

lemma regGet_mem (r : Registry) (e : String) (v : List Nat)
    (h : regGet r e = some v) : (e, v) ∈ r := by
  induction r with
  | nil => simp [regGet] at h
  | cons p rest ih =>
      obtain ⟨k, w⟩ := p
      by_cases hk : k = e
      · subst hk
        simp [regGet] at h
        subst h; exact List.mem_cons_self _ _
      · simp only [regGet, if_neg hk] at h
        exact List.mem_cons_of_mem _ (ih h)

lemma mem_keys_regSet (r : Registry) (e : String) (v : List Nat) (e' : String)
    (h : e' ∈ (regSet r e v).map Prod.fst) :
    e' = e ∨ e' ∈ r.map Prod.fst := by
  induction r with
  | nil => simpa [regSet] using h
  | cons p rest ih =>
      obtain ⟨k, w⟩ := p
      by_cases hk : k = e
      · subst hk
        simpa [regSet] using h
      · simp only [regSet, if_neg hk, List.map_cons, List.mem_cons] at h
        rcases h with h | h
        · simp [h]
        · rcases ih h with h | h
          · exact Or.inl h
          · simp [h]

lemma keys_regSet_nodup (r : Registry) (e : String) (v : List Nat)
    (h : (r.map Prod.fst).Nodup) : ((regSet r e v).map Prod.fst).Nodup := by
  induction r with
  | nil => simp [regSet]
  | cons p rest ih =>
      obtain ⟨k, w⟩ := p
      simp only [List.map_cons, List.nodup_cons] at h
      by_cases hk : k = e
      · subst hk
        simpa [regSet] using h
      · simp only [regSet, if_neg hk, List.map_cons, List.nodup_cons]
        refine ⟨fun hmem => ?_, ih h.2⟩
        rcases mem_keys_regSet rest e v k hmem with h1 | h1
        · exact hk h1
        · exact h.1 h1

lemma mem_regSet (r : Registry) (e : String) (v : List Nat)
    (p : String × List Nat) (h : p ∈ regSet r e v) : p = (e, v) ∨ p ∈ r := by
  induction r with
  | nil => simpa [regSet] using h
  | cons q rest ih =>
      obtain ⟨k, w⟩ := q
      by_cases hk : k = e
      · subst hk
        rcases (List.mem_cons).mp (by simpa [regSet] using h) with h1 | h1
        · exact Or.inl h1
        · exact Or.inr (List.mem_cons_of_mem _ h1)
      · rcases (List.mem_cons).mp (by simpa [regSet, if_neg hk] using h) with h1 | h1
        · exact Or.inr (by simp [h1])
        · rcases ih h1 with h2 | h2
          · exact Or.inl h2
          · exact Or.inr (List.mem_cons_of_mem _ h2)

lemma mem_regDelete (r : Registry) (e : String) (p : String × List Nat)
    (h : p ∈ regDelete r e) : p ∈ r := by
  induction r with
  | nil => simpa [regDelete] using h
  | cons q rest ih =>
      obtain ⟨k, w⟩ := q
      by_cases hk : k = e
      · subst hk
        exact List.mem_cons_of_mem _ (by simpa [regDelete] using h)
      · rcases (List.mem_cons).mp (by simpa [regDelete, if_neg hk] using h) with h1 | h1
        · simp [h1]
        · exact List.mem_cons_of_mem _ (ih h1)

lemma keys_regDelete_nodup (r : Registry) (e : String)
    (h : (r.map Prod.fst).Nodup) : ((regDelete r e).map Prod.fst).Nodup := by
  induction r with
  | nil => simp [regDelete]
  | cons q rest ih =>
      obtain ⟨k, w⟩ := q
      simp only [List.map_cons, List.nodup_cons] at h
      by_cases hk : k = e
      · subst hk; simpa [regDelete] using h.2
      · simp only [regDelete, if_neg hk, List.map_cons, List.nodup_cons]
        refine ⟨fun hmem => ?_, ih h.2⟩
        rcases List.mem_map.mp hmem with ⟨p, hp, hpk⟩
        exact h.1 (List.mem_map.mpr ⟨p, mem_regDelete rest e p hp, hpk⟩)

lemma regSet_self_eq (r : Registry) (e : String) (v : List Nat)
    (h : regGet r e = some v) : regSet r e v = r := by
  induction r with
  | nil => simp [regGet] at h
  | cons q rest ih =>
      obtain ⟨k, w⟩ := q
      by_cases hk : k = e
      · subst hk
        simp [regGet] at h
        simp [regSet, h]
      · simp only [regGet, if_neg hk] at h
        simp [regSet, hk, ih h]

lemma setAdd_ne_nil (l : List Nat) (cb : Nat) : setAdd l cb ≠ [] := by
  unfold setAdd
  split_ifs with h
  · intro hnil; subst hnil; simp at h
  · simp

lemma setAdd_nodup (l : List Nat) (cb : Nat) (h : l.Nodup) :
    (setAdd l cb).Nodup := by
  unfold setAdd
  split_ifs with hm
  · exact h
  · simp [List.nodup_append, h, hm]

lemma validateEvent_ok_trim (ev : EvArg) (r : String)
    (h : validateEvent ev = .ok r) : jsTrim (evString ev) ≠ "" := by
  cases ev with
  | str s0 =>
      by_cases h0 : jsTrim s0 = "" <;> simp [validateEvent, evString, h0] at h ⊢
  | nonStr => simp [validateEvent] at h

/-- A host coordinator still waiting for the ready sentinel. -/
def hostWaiting : HostState := ⟨"https://a.example", true, true, .pending⟩

/-- A client coordinator that has not yet broadcast. -/
def clientWaiting : ClientState := ⟨"https://a.example", 0, true, true, true, .pending⟩

/-- A client coordinator that has already used all 60 attempts. -/
def clientAtBound : ClientState := ⟨"https://a.example", 60, true, true, true, .pending⟩

lemma settleCount_nil (id : Nat) : settleCount id [] = 0 := rfl

lemma settleCount_cons (id : Nat) (o : Output) (l : List Output) :
    settleCount id (o :: l) = settleWeight id o + settleCount id l := by
  simp [settleCount]

lemma settleCount_append (id : Nat) (l₁ l₂ : List Output) :
    settleCount id (l₁ ++ l₂) = settleCount id l₁ + settleCount id l₂ := by
  simp [settleCount]

lemma emit_fst (s : IfaceState) (ev : EvArg) (d : Option Nat) :
    (emit s ev d).1 = s := by
  by_cases h : s.isDestroyed = true
  · simp [emit, h]
  · cases hv : validateEvent ev <;> simp [emit, h, hv]

lemma emit_settle (s : IfaceState) (ev : EvArg) (d : Option Nat) (id : Nat) :
    settleCount id (emit s ev d).2 = 0 := by
  by_cases h : s.isDestroyed = true
  · simp [emit, h, settleCount, settleWeight]
  · cases hv : validateEvent ev <;> simp [emit, h, hv, settleCount, settleWeight]

lemma onEvt_frame (s : IfaceState) (ev : EvArg) (c : Bool) (cb : Nat) (id : Nat) :
    (onEvt s ev c cb).1.pendingCalls = s.pendingCalls ∧
    (onEvt s ev c cb).1.callId = s.callId ∧
    (onEvt s ev c cb).1.isDestroyed = s.isDestroyed ∧
    settleCount id (onEvt s ev c cb).2 = 0 := by
  cases hv : validateEvent ev with
  | error m => simp [onEvt, hv, settleCount, settleWeight]
  | ok r =>
      by_cases hc : c = true <;>
        simp [onEvt, hv, hc, settleCount, settleWeight]

lemma off_snd (s : IfaceState) (ev : EvArg) (cb : Nat) : (off s ev cb).2 = [] := by
  by_cases h : regHas s.handlers (evString ev) = true
  · by_cases h2 : ((regGet s.handlers (evString ev)).getD []).erase cb = [] <;>
      simp [off, h, h2]
  · simp [off, h]

lemma off_frame (s : IfaceState) (ev : EvArg) (cb : Nat) :
    (off s ev cb).1.pendingCalls = s.pendingCalls ∧
    (off s ev cb).1.callId = s.callId ∧
    (off s ev cb).1.isDestroyed = s.isDestroyed := by
  by_cases h : regHas s.handlers (evString ev) = true
  · by_cases h2 : ((regGet s.handlers (evString ev)).getD []).erase cb = [] <;>
      simp [off, h, h2]
  · simp [off, h]

lemma settleCount_emitAll (henv : HEnv) (d : Option Nat) (ev : String)
    (id : Nat) (l : List Nat) : settleCount id (emitAll henv d ev l) = 0 := by
  induction l with
  | nil => rfl
  | cons cb rest ih =>
      cases h : henv cb d <;>
        simp [emitAll, h, settleCount_cons, settleCount_append, settleWeight, ih]

lemma recvEvent_fst (henv : HEnv) (s : IfaceState) (e : Envelope) (ev : String) :
    (recvEvent henv s e ev).1 = s := by
  by_cases hid : truthyN e.iboxId = true
  · cases hc : (regGet s.handlers ev).getD [] with
    | nil => simp [recvEvent, hid, hc]
    | cons cb rest => cases h : henv cb e.data <;> simp [recvEvent, hid, hc, h]
  · simp [recvEvent, hid]

lemma recvEvent_settle (henv : HEnv) (s : IfaceState) (e : Envelope) (ev : String)
    (id : Nat) : settleCount id (recvEvent henv s e ev).2 = 0 := by
  by_cases hid : truthyN e.iboxId = true
  · cases hc : (regGet s.handlers ev).getD [] with
    | nil => simp [recvEvent, hid, hc, settleCount]
    | cons cb rest =>
        cases h : henv cb e.data <;>
          simp [recvEvent, hid, hc, h, settleCount, settleWeight]
  · simp [recvEvent, hid, settleCount_emitAll]

lemma settleCount_destroySettles (l : List Nat) (id : Nat) (hnd : l.Nodup) :
    settleCount id (destroySettles l) = if id ∈ l then 1 else 0 := by
  induction l with
  | nil => simp [destroySettles, settleCount]
  | cons i rest ih =>
      obtain ⟨hm, hnd2⟩ := List.nodup_cons.mp hnd
      by_cases hid : i = id
      · subst hid
        simp [destroySettles, settleCount_cons, settleWeight, ih hnd2, hm]
      · have hne : ¬ id = i := fun h => hid h.symm
        simp [destroySettles, settleCount_cons, settleWeight, hid, ih hnd2,
          List.mem_cons, hne]

lemma stepRun_preserves_destroyed (henv : HEnv) (st : Step) (s : IfaceState)
    (h : s.isDestroyed = true) : (stepRun henv s st).1.isDestroyed = true := by
  cases st with
  | recvMsg e => simp [stepRun, recv, h]
  | timer id t ev =>
      by_cases hm : id ∈ s.pendingCalls <;> simp [stepRun, timerFire, hm, h]
  | doEmit ev d => simp [stepRun, emit_fst, h]
  | doCall ev d t ok => simp [stepRun, call, h]
  | doOn ev c cb => exact ((onEvt_frame s ev c cb 0).2.2.1).trans h
  | doOff ev cb => exact ((off_frame s ev cb).2.2).trans h
  | doDestroy => simp [stepRun, destroy, h]

lemma runTrace_preserves_destroyed (henv : HEnv) (ts : List Step)
    (s : IfaceState) (h : s.isDestroyed = true) :
    (runTrace henv s ts).1.isDestroyed = true := by
  induction ts generalizing s with
  | nil => simpa [runTrace] using h
  | cons st rest ih =>
      simpa [runTrace] using ih _ (stepRun_preserves_destroyed henv st s h)

lemma emitAll_invokes (henv : HEnv) (d : Option Nat) (ev : String)
    (cbs : List Nat) : (emitAll henv d ev cbs).filterMap invokedCb = cbs := by
  induction cbs with
  | nil => rfl
  | cons cb rest ih => cases hr : henv cb d <;> simp [emitAll, hr, invokedCb, ih]

/-- Claim C3 counterexample: an inbound response envelope whose errorMessage
field is present but equal to the empty string settles the matching call as
a success carrying data — the dispatcher tests the field for truthiness,
not presence — although the claim requires a failure carrying that string
whenever errorMessage is present. -/
theorem empty_error_message_resolves :
    recv hEnv0 ⟨[], [1], 1, false⟩ ⟨none, some 5, none, some 1, some ""⟩ =
      (⟨[], [], 1, false⟩,
       [Output.clearTimer 1, Output.settle 1 (.resolved (some 5))]) := by decide

/-- Claim C3 (amended): for every inbound envelope whose responseId is
truthy and matches a pending entry of a live instance, the dispatcher
removes exactly that entry, clears its timer, and settles the call —
failure with the errorMessage string when that field is present and
non-empty (truthy), success with data otherwise — and processing stops
there: the envelope is never also dispatched as an event. -/
theorem response_settles_pending (henv : HEnv) (s : IfaceState) (e : Envelope)
    (i : Nat) (hlive : s.isDestroyed = false) (hres : e.iboxResId = some i)
    (hi : i ≠ 0) (hmem : i ∈ s.pendingCalls) :
    recv henv s e =
      ({ s with pendingCalls := s.pendingCalls.erase i },
       if truthyS e.iboxError = true then
         [Output.clearTimer i, Output.settle i (.rejected (e.iboxError.getD ""))]
       else
         [Output.clearTimer i, Output.settle i (.resolved e.data)]) := by
  have hcond : truthyN e.iboxResId = true ∧ e.iboxResId.getD 0 ∈ s.pendingCalls := by
    simp [hres, truthyN, hi, hmem]
  unfold recv
  rw [if_neg (by simp [hlive]), if_pos hcond, hres]
  simp only [Option.getD_some]

/-- Witness for response_settles_pending: a failing response to pending
call 1 of a live instance with calls 1 and 2 outstanding. -/
theorem response_settles_pending_witness :
    recv hEnv0 ⟨[], [1, 2], 2, false⟩ ⟨none, none, none, some 1, some "boom"⟩ =
      (⟨[], [2], 2, false⟩,
       [Output.clearTimer 1, Output.settle 1 (.rejected "boom")]) :=
  (response_settles_pending hEnv0 ⟨[], [1, 2], 2, false⟩
    ⟨none, none, none, some 1, some "boom"⟩ 1 rfl rfl (by decide)
    (by decide)).trans (by decide)

/-- Claim C2: an inbound request envelope — truthy event name with
registered handlers and a truthy correlation id — that is not a matching
response invokes only the first-registered handler with the payload and
posts exactly one response envelope: the correlation id with the result
data on success, the correlation id with the failure message on failure;
no other registered handler is invoked. -/
theorem rpc_first_handler_response (henv : HEnv) (s : IfaceState) (e : Envelope)
    (evName : String) (cb : Nat) (rest : List Nat) (i : Nat)
    (hlive : s.isDestroyed = false)
    (hnores : ¬(truthyN e.iboxResId = true ∧ e.iboxResId.getD 0 ∈ s.pendingCalls))
    (hev : e.event = some evName) (hevne : evName ≠ "")
    (hreg : regGet s.handlers evName = some (cb :: rest))
    (hid : e.iboxId = some i) (hi : i ≠ 0) :
    recv henv s e =
      (s, [Output.invoke cb e.data,
           Output.post
             (match henv cb e.data with
              | .ok r => { iboxResId := some i, data := r }
              | .err m => { iboxResId := some i, iboxError := some m })]) := by
  have hhas : regHas s.handlers evName = true := by simp [regHas, hreg]
  have hcond : truthyS e.event = true ∧ regHas s.handlers (e.event.getD "") = true := by
    simp [hev, truthyS, hevne, hhas]
  unfold recv
  rw [if_neg (by simp [hlive]), if_neg hnores, if_pos hcond, hev]
  simp only [Option.getD_some]
  cases hr : henv cb e.data <;>
    simp [recvEvent, hreg, hid, truthyN, hi, hr]

/-- Witness for rpc_first_handler_response: a request for event x against a
live instance with a single registered handler returning no value. -/
theorem rpc_first_handler_response_witness :
    recv hEnv0 regState ⟨some "x", some 7, some 1, none, none⟩ =
      (regState, [Output.invoke 1 (some 7),
                  Output.post { iboxResId := some 1, data := none }]) :=
  (rpc_first_handler_response hEnv0 regState ⟨some "x", some 7, some 1, none, none⟩
    "x" 1 [] 1 rfl (by decide) rfl (by decide) rfl rfl (by decide)).trans (by decide)

/-- Claim C4: an inbound fire-and-forget envelope — truthy event name with
registered handlers and no truthy correlation id — that is not a matching
response invokes every registered handler with the payload, in registration
order (the invocation outputs project exactly to the registered callback
list); a failing handler contributes a diagnostic report and never prevents
the remaining handlers from running, and nothing is propagated. -/
theorem fire_and_forget_all_handlers (henv : HEnv) (s : IfaceState) (e : Envelope)
    (evName : String) (cbs : List Nat)
    (hlive : s.isDestroyed = false)
    (hnores : ¬(truthyN e.iboxResId = true ∧ e.iboxResId.getD 0 ∈ s.pendingCalls))
    (hev : e.event = some evName) (hevne : evName ≠ "")
    (hreg : regGet s.handlers evName = some cbs)
    (hid : truthyN e.iboxId = false) :
    recv henv s e = (s, emitAll henv e.data evName cbs) ∧
    (emitAll henv e.data evName cbs).filterMap invokedCb = cbs := by
  constructor
  · have hhas : regHas s.handlers evName = true := by simp [regHas, hreg]
    have hcond : truthyS e.event = true ∧ regHas s.handlers (e.event.getD "") = true := by
      simp [hev, truthyS, hevne, hhas]
    unfold recv
    rw [if_neg (by simp [hlive]), if_neg hnores, if_pos hcond, hev]
    simp only [Option.getD_some]
    simp [recvEvent, hreg, hid]
  · exact emitAll_invokes henv e.data evName cbs

/-- Witness for fire_and_forget_all_handlers: two handlers on one event,
the first of which fails; both are invoked and the failure becomes a
diagnostic report between the two invocations. -/
theorem fire_and_forget_all_handlers_witness :
    recv hEnvFail1 twoHandlerState ⟨some "x", some 7, none, none, none⟩ =
      (twoHandlerState,
       [Output.invoke 1 (some 7), Output.consoleError "x" "boom",
        Output.invoke 2 (some 7)]) ∧
    (emitAll hEnvFail1 (some 7) "x" [1, 2]).filterMap invokedCb = [1, 2] := by
  have h := fire_and_forget_all_handlers hEnvFail1 twoHandlerState
    ⟨some "x", some 7, none, none, none⟩ "x" [1, 2] rfl (by decide) rfl
    (by decide) rfl rfl
  exact ⟨h.1.trans (by decide), h.2⟩

/-- Claim C5: destroy is idempotent (a second call is a no-op with no
output); on a live instance it marks the instance destroyed, closes the
port, rejects every still-pending call with the connection-destroyed
reason, clears the pending-call table and clears the handler registry; the
destroyed flag persists across every later step, and on a destroyed
instance emit throws and call rejects with the destroyed-instance reason. -/
theorem destroy_contract :
    (∀ s, s.isDestroyed = true → destroy s = (s, [])) ∧
    (∀ s, s.isDestroyed = false →
        destroy s = (⟨[], [], s.callId, true⟩,
          Output.portClose :: destroySettles s.pendingCalls)) ∧
    (∀ s, destroy (destroy s).1 = ((destroy s).1, [])) ∧
    (∀ henv ts s, s.isDestroyed = true → (runTrace henv s ts).1.isDestroyed = true) ∧
    (∀ s ev d, s.isDestroyed = true →
        emit s ev d = (s, [Output.threw "ibox: Instance destroyed"])) ∧
    (∀ s ev d t ok, s.isDestroyed = true →
        call s ev d t ok = (s, [Output.rejectNow "ibox: Instance destroyed"])) := by
  refine ⟨?_, ?_, ?_, runTrace_preserves_destroyed, ?_, ?_⟩
  · intro s h; simp [destroy, h]
  · intro s h; simp [destroy, h]
  · intro s
    by_cases h : s.isDestroyed = true
    · simp [destroy, h]
    · simp [destroy, h]
  · intro s ev d h; simp [emit, h]
  · intro s ev d t ok h; simp [call, h]

/-- Witness for destroy_contract at concrete inputs: a live instance with
two pending calls and a handler, and the destroyed instance it produces. -/
theorem destroy_contract_witness :
    destroy ⟨[("x", [1])], [1, 2], 2, false⟩ =
      (⟨[], [], 2, true⟩,
       [Output.portClose,
        Output.clearTimer 1, Output.settle 1 (.rejected "ibox: Connection destroyed"),
        Output.clearTimer 2, Output.settle 2 (.rejected "ibox: Connection destroyed")]) ∧
    destroy ⟨[], [], 2, true⟩ = (⟨[], [], 2, true⟩, []) ∧
    (runTrace hEnv0 ⟨[], [], 2, true⟩ [Step.doOn (.str "x") true 1]).1.isDestroyed = true ∧
    emit ⟨[], [], 2, true⟩ (.str "x") none =
      (⟨[], [], 2, true⟩, [Output.threw "ibox: Instance destroyed"]) ∧
    call ⟨[], [], 2, true⟩ (.str "x") none 50 true =
      (⟨[], [], 2, true⟩, [Output.rejectNow "ibox: Instance destroyed"]) :=
  ⟨by
    have h := destroy_contract.2.1 ⟨[("x", [1])], [1, 2], 2, false⟩ rfl
    simpa [destroySettles] using h,
   destroy_contract.1 ⟨[], [], 2, true⟩ rfl,
   destroy_contract.2.2.2.1 hEnv0 [Step.doOn (.str "x") true 1] ⟨[], [], 2, true⟩ rfl,
   destroy_contract.2.2.2.2.1 ⟨[], [], 2, true⟩ (.str "x") none rfl,
   destroy_contract.2.2.2.2.2 ⟨[], [], 2, true⟩ (.str "x") none 50 true rfl⟩

/-- Claim C7: with a live instance whose pending-call table is at capacity,
the next call is rejected with the busy reason, the state is unchanged (no
new entry) and nothing is posted. -/
theorem call_busy_at_capacity (s : IfaceState) (ev : EvArg) (d : Option Nat)
    (t : Nat) (ok : Bool) (hlive : s.isDestroyed = false)
    (hfull : MAX_PENDING_CALLS ≤ s.pendingCalls.length) :
    call s ev d t ok = (s, [Output.rejectNow "ibox: Busy"]) := by
  simp [call, hlive, hfull]

/-- Witness for call_busy_at_capacity: a concrete state with 1000 pending
entries. -/
theorem call_busy_at_capacity_witness :
    call fullState (.str "ping") none 50 true =
      (fullState, [Output.rejectNow "ibox: Busy"]) :=
  call_busy_at_capacity fullState (.str "ping") none 50 true rfl
    (by simp [fullState])

/-- Claim C6 counterexample: registering a handler on a destroyed instance
raises no synchronous failure — the operation returns normally and even
mutates the registry — and off on a destroyed instance with a non-string
event name also returns normally, although the claim requires a synchronous
failure in both situations. -/
theorem on_after_destroy_no_failure :
    onEvt ⟨[], [], 0, true⟩ (.str "x") true 7 = (⟨[("x", [7])], [], 0, true⟩, []) ∧
    off ⟨[], [], 0, true⟩ .nonStr 7 = (⟨[], [], 0, true⟩, []) := by
  exact ⟨rfl, rfl⟩

/-- Claim C6 (amended): emit raises a synchronous failure when the instance
is destroyed, and otherwise when the event name is invalid; on raises a
synchronous failure when the event name is invalid or the handler is not
callable; an event name is valid exactly when it is a string with non-empty
trim.  Contrary to the original claim, on does not check the destroyed flag
and off performs no validation at all, so neither raises on a destroyed
instance and off never raises. -/
theorem usage_errors_sync :
    (∀ s ev d, s.isDestroyed = true →
        emit s ev d = (s, [Output.threw "ibox: Instance destroyed"])) ∧
    (∀ s ev d m, s.isDestroyed = false → validateEvent ev = .error m →
        emit s ev d = (s, [Output.threw m])) ∧
    (∀ s ev c cb m, validateEvent ev = .error m →
        onEvt s ev c cb = (s, [Output.threw m])) ∧
    (∀ s ev cb r, validateEvent ev = .ok r →
        onEvt s ev false cb = (s, [Output.threw "ibox: Handler must be a function"])) ∧
    (∀ s ev cb, (off s ev cb).2 = []) ∧
    (∀ ev, (validateEvent ev).isOk = true ↔ ∃ s0, ev = .str s0 ∧ jsTrim s0 ≠ "") := by
  refine ⟨?_, ?_, ?_, ?_, ?_, ?_⟩
  · intro s ev d h; simp [emit, h]
  · intro s ev d m h hv; simp [emit, h, hv]
  · intro s ev c cb m hv; simp [onEvt, hv]
  · intro s ev cb r hv; simp [onEvt, hv]
  · intro s ev cb
    by_cases h : regHas s.handlers (evString ev) = true
    · by_cases h2 : ((regGet s.handlers (evString ev)).getD []).erase cb = [] <;>
        simp [off, h, h2]
    · simp [off, h]
  · intro ev
    cases ev with
    | str s0 =>
        by_cases h : jsTrim s0 = "" <;> simp [validateEvent, h, Except.isOk, Except.toBool]
    | nonStr => simp [validateEvent, Except.isOk, Except.toBool]

lemma cur_nodup (r : Registry) (e : String) (h : wfReg r) :
    ((regGet r e).getD []).Nodup := by
  cases hg : regGet r e with
  | none => simp
  | some v => exact (h.2 _ (regGet_mem r e v hg)).2.2

/-- Claim C10 counterexample: on registers the callback under the original,
untrimmed event name (the trimmed name returned by validation is discarded),
so after registering under " a " the registry key is " a " itself, which is
not a trimmed string as the claim requires. -/
theorem on_key_not_trimmed :
    (onEvt initState (.str " a ") true 1).1.handlers = [(" a ", [1])] ∧
    jsTrim " a " ≠ " a " := ⟨rfl, by decide⟩

/-- Claim C10 (amended): the handler registry maps event-name strings that
are non-empty after trimming — stored verbatim, not trimmed — to non-empty,
duplicate-free callback collections; on and off preserve this invariant, so
a key exists only while its set is non-empty; off removes only the
specified callback, deletes the key when the last callback is removed,
leaves every other key untouched, and is a no-op for an unregistered event
or callback. -/
theorem registry_invariant :
    wfReg initState.handlers ∧
    (∀ s ev c cb, wfReg s.handlers → wfReg (onEvt s ev c cb).1.handlers) ∧
    (∀ s ev cb, wfReg s.handlers → wfReg (off s ev cb).1.handlers) ∧
    (∀ s ev cb, regGet s.handlers (evString ev) = none → off s ev cb = (s, [])) ∧
    (∀ s ev cb cur, wfReg s.handlers → regGet s.handlers (evString ev) = some cur →
        cb ∉ cur → off s ev cb = (s, [])) ∧
    (∀ s ev cb cur, wfReg s.handlers → regGet s.handlers (evString ev) = some cur →
        regGet (off s ev cb).1.handlers (evString ev) =
          (if cur.erase cb = [] then none else some (cur.erase cb))) ∧
    (∀ s ev cb e', e' ≠ evString ev →
        regGet (off s ev cb).1.handlers e' = regGet s.handlers e') := by
  refine ⟨⟨by simp [initState], by simp [initState]⟩, ?_, ?_, ?_, ?_, ?_, ?_⟩
  · intro s ev c cb h
    cases hv : validateEvent ev with
    | error m => simpa [onEvt, hv] using h
    | ok r =>
        by_cases hc : c = true
        · subst hc
          simp only [onEvt, hv, if_true]
          refine ⟨keys_regSet_nodup _ _ _ h.1, ?_⟩
          intro p hp
          rcases mem_regSet _ _ _ _ hp with h1 | h1
          · subst h1
            exact ⟨setAdd_ne_nil _ _, validateEvent_ok_trim ev r hv,
                   setAdd_nodup _ _ (cur_nodup _ _ h)⟩
          · exact h.2 p h1
        · simpa [onEvt, hv, hc] using h
  · intro s ev cb h
    by_cases hh : regHas s.handlers (evString ev) = true
    · by_cases he : ((regGet s.handlers (evString ev)).getD []).erase cb = []
      · simp only [off, hh, if_true, he]
        refine ⟨keys_regDelete_nodup _ _ h.1, ?_⟩
        intro p hp
        exact h.2 p (mem_regDelete _ _ _ hp)
      · simp only [off, hh, if_true, if_neg he]
        obtain ⟨cur0, hg⟩ := Option.isSome_iff_exists.mp (by simpa [regHas] using hh)
        refine ⟨keys_regSet_nodup _ _ _ h.1, ?_⟩
        intro p hp
        rcases mem_regSet _ _ _ _ hp with h1 | h1
        · subst h1
          refine ⟨he, (h.2 _ (regGet_mem _ _ _ hg)).2.1, ?_⟩
          exact List.Nodup.erase _ (cur_nodup _ _ h)
        · exact h.2 p h1
    · simpa [off, hh] using h
  · intro s ev cb hg
    simp [off, regHas, hg]
  · intro s ev cb cur h hg hmem
    have hne : cur ≠ [] := (h.2 _ (regGet_mem _ _ _ hg)).1
    have her : cur.erase cb = cur := List.erase_of_not_mem hmem
    simp [off, regHas, hg, her, hne, regSet_self_eq _ _ _ hg]
  · intro s ev cb cur h hg
    by_cases he : cur.erase cb = []
    · simp only [off, regHas, hg, Option.isSome_some, if_true, Option.getD_some, he,
        if_pos rfl]
      exact regGet_regDelete_self _ _ h.1
    · simp [off, regHas, hg, he, regGet_regSet_self]
  · intro s ev cb e' hne
    by_cases hh : regHas s.handlers (evString ev) = true
    · by_cases he : ((regGet s.handlers (evString ev)).getD []).erase cb = []
      · simp [off, hh, he, regGet_regDelete_ne _ _ _ hne]
      · simp [off, hh, he, regGet_regSet_ne _ _ _ _ hne]
    · simp [off, hh]

/-- Witness for registry_invariant at concrete inputs. -/
theorem registry_invariant_witness :
    wfReg (onEvt initState (.str "x") true 1).1.handlers ∧
    wfReg (off regState (.str "x") 1).1.handlers ∧
    off initState (.str "x") 1 = (initState, []) ∧
    off regState (.str "x") 2 = (regState, []) ∧
    regGet (off regState (.str "x") 1).1.handlers "x" = none ∧
    regGet (off regState (.str "x") 1).1.handlers "y" = regGet regState.handlers "y" :=
  ⟨registry_invariant.2.1 initState (.str "x") true 1 registry_invariant.1,
   registry_invariant.2.2.1 regState (.str "x") 1 ⟨by decide, by decide⟩,
   registry_invariant.2.2.2.1 initState (.str "x") 1 rfl,
   registry_invariant.2.2.2.2.1 regState (.str "x") 2 [1] ⟨by decide, by decide⟩ rfl (by decide),
   registry_invariant.2.2.2.2.2.1 regState (.str "x") 1 [1] ⟨by decide, by decide⟩ rfl,
   registry_invariant.2.2.2.2.2.2 regState (.str "x") 1 "y" (by decide)⟩

/-- Witness for usage_errors_sync at concrete inputs. -/
theorem usage_errors_sync_witness :
    emit ⟨[], [], 0, true⟩ (.str "x") none =
      (⟨[], [], 0, true⟩, [Output.threw "ibox: Instance destroyed"]) ∧
    emit initState (.str " ") none =
      (initState, [Output.threw "ibox: Event name must be a non-empty string"]) ∧
    onEvt initState .nonStr true 3 =
      (initState, [Output.threw "ibox: Event name must be a non-empty string"]) ∧
    onEvt initState (.str "x") false 3 =
      (initState, [Output.threw "ibox: Handler must be a function"]) ∧
    (off initState (.str "x") 3).2 = [] ∧
    ((validateEvent (.str "ping")).isOk = true ↔
      ∃ s0, EvArg.str "ping" = .str s0 ∧ jsTrim s0 ≠ "") :=
  ⟨usage_errors_sync.1 _ (.str "x") none rfl,
   usage_errors_sync.2.1 _ (.str " ") none _ rfl rfl,
   usage_errors_sync.2.2.1 _ .nonStr true 3 _ rfl,
   usage_errors_sync.2.2.2.1 _ (.str "x") 3 "x" rfl,
   usage_errors_sync.2.2.2.2.1 _ (.str "x") 3,
   usage_errors_sync.2.2.2.2.2 (.str "ping")⟩

lemma not_mem_erase_self (l : List Nat) (a : Nat) (h : l.Nodup) :
    a ∉ l.erase a := by
  intro hmem
  exact ((List.Nodup.mem_erase_iff h).mp hmem).1 rfl

lemma recv_shape (henv : HEnv) (s : IfaceState) (e : Envelope) :
    (recv henv s e).1 = s ∨
    (recv henv s e).1 =
      { s with pendingCalls := s.pendingCalls.erase (e.iboxResId.getD 0) } := by
  by_cases hD : s.isDestroyed = true
  · left; simp [recv, hD]
  · by_cases hres : truthyN e.iboxResId = true ∧ e.iboxResId.getD 0 ∈ s.pendingCalls
    · right; unfold recv; rw [if_neg (by simp [hD]), if_pos hres]
    · by_cases hev : truthyS e.event = true ∧ regHas s.handlers (e.event.getD "") = true
      · left
        unfold recv
        rw [if_neg (by simp [hD]), if_neg hres, if_pos hev]
        exact recvEvent_fst henv s e _
      · left; unfold recv; rw [if_neg (by simp [hD]), if_neg hres, if_neg hev]

lemma timerFire_shape (s : IfaceState) (id t : Nat) (ev : String) :
    (timerFire s id t ev).1 = s ∨
    (timerFire s id t ev).1 = { s with pendingCalls := s.pendingCalls.erase id } := by
  by_cases hm : id ∈ s.pendingCalls
  · right; unfold timerFire; rw [if_pos hm]
  · left; unfold timerFire; rw [if_neg hm]

lemma call_shape (s : IfaceState) (ev : EvArg) (d : Option Nat) (t : Nat) (ok : Bool) :
    (call s ev d t ok).1 = s ∨
    (call s ev d t ok).1 =
      ⟨s.handlers, s.pendingCalls ++ [s.callId + 1], s.callId + 1, s.isDestroyed⟩ ∨
    (call s ev d t ok).1 =
      ⟨s.handlers, s.pendingCalls, s.callId + 1, s.isDestroyed⟩ := by
  unfold call
  by_cases hD : s.isDestroyed = true
  · left; rw [if_pos hD]
  · rw [if_neg hD]
    by_cases hcap : MAX_PENDING_CALLS ≤ s.pendingCalls.length
    · left; rw [if_pos hcap]
    · rw [if_neg hcap]
      cases hv : validateEvent ev with
      | error m => left; simp [hv]
      | ok r =>
          cases ok
          · right; right; simp [hv]
          · right; left; simp [hv]

lemma destroy_shape (s : IfaceState) :
    (destroy s).1 = s ∨ (destroy s).1 = ⟨[], [], s.callId, true⟩ := by
  by_cases hD : s.isDestroyed = true
  · left; unfold destroy; rw [if_pos hD]
  · right; unfold destroy; rw [if_neg hD]

lemma newSettled_eq (st : Step) (s : IfaceState) (id : Nat)
    (h : newSettled st s = some id) : id = s.callId + 1 := by
  cases st with
  | doCall ev d t ok =>
      cases ok with
      | false =>
          simp only [newSettled] at h
          by_cases hg : s.isDestroyed = false ∧
              s.pendingCalls.length < MAX_PENDING_CALLS ∧
              (validateEvent ev).isOk = true
          · rw [if_pos hg] at h
            exact (Option.some.inj h).symm
          · rw [if_neg hg] at h
            simp at h
      | true => simp [newSettled] at h
  | recvMsg e => simp [newSettled] at h
  | timer a b c => simp [newSettled] at h
  | doEmit a b => simp [newSettled] at h
  | doOn a b c => simp [newSettled] at h
  | doOff a b => simp [newSettled] at h
  | doDestroy => simp [newSettled] at h

lemma stepRun_not_destroy (henv : HEnv) (st : Step) (s : IfaceState)
    (h : st ≠ Step.doDestroy) :
    (stepRun henv s st).1.isDestroyed = s.isDestroyed := by
  cases st with
  | recvMsg e => rcases recv_shape henv s e with hs | hs <;> simp [stepRun, hs]
  | timer a b c => rcases timerFire_shape s a b c with hs | hs <;> simp [stepRun, hs]
  | doEmit a b => simp [stepRun, emit_fst]
  | doCall a b c d =>
      rcases call_shape s a b c d with hs | hs | hs <;> simp [stepRun, hs]
  | doOn a b c => simp [stepRun, (onEvt_frame s a b c 0).2.2.1]
  | doOff a b => simp [stepRun, (off_frame s a b).2.2]
  | doDestroy => exact absurd rfl h

lemma stepRun_callId_mono (henv : HEnv) (st : Step) (s : IfaceState) :
    s.callId ≤ (stepRun henv s st).1.callId := by
  cases st with
  | recvMsg e => rcases recv_shape henv s e with hs | hs <;> simp [stepRun, hs]
  | timer a b c => rcases timerFire_shape s a b c with hs | hs <;> simp [stepRun, hs]
  | doEmit a b => simp [stepRun, emit_fst]
  | doCall a b c d =>
      rcases call_shape s a b c d with hs | hs | hs <;>
        simp [stepRun, hs, Nat.le_succ]
  | doOn a b c => simp [stepRun, (onEvt_frame s a b c 0).2.1]
  | doOff a b => simp [stepRun, (off_frame s a b).2.1]
  | doDestroy => rcases destroy_shape s with hs | hs <;> simp [stepRun, hs]

lemma stepRun_pending_new (henv : HEnv) (st : Step) (s : IfaceState) (id : Nat)
    (h : id ∈ (stepRun henv s st).1.pendingCalls) :
    id ∈ s.pendingCalls ∨
    (id = s.callId + 1 ∧ (stepRun henv s st).1.callId = s.callId + 1) := by
  cases st with
  | recvMsg e =>
      rcases recv_shape henv s e with hs | hs <;> simp only [stepRun] at h <;>
        rw [hs] at h
      · exact Or.inl h
      · exact Or.inl (List.mem_of_mem_erase h)
  | timer a b c =>
      rcases timerFire_shape s a b c with hs | hs <;> simp only [stepRun] at h <;>
        rw [hs] at h
      · exact Or.inl h
      · exact Or.inl (List.mem_of_mem_erase h)
  | doEmit a b =>
      simp only [stepRun] at h; rw [emit_fst] at h; exact Or.inl h
  | doCall a b c d =>
      rcases call_shape s a b c d with hs | hs | hs <;>
        simp only [stepRun] at h ⊢ <;> rw [hs] at h ⊢
      · exact Or.inl h
      · rcases List.mem_append.mp h with h1 | h1
        · exact Or.inl h1
        · simp at h1; exact Or.inr ⟨h1, rfl⟩
      · exact Or.inl h
  | doOn a b c =>
      simp only [stepRun] at h; rw [(onEvt_frame s a b c 0).1] at h; exact Or.inl h
  | doOff a b =>
      simp only [stepRun] at h; rw [(off_frame s a b).1] at h; exact Or.inl h
  | doDestroy =>
      rcases destroy_shape s with hs | hs <;> simp only [stepRun] at h <;>
        rw [hs] at h
      · exact Or.inl h
      · simp at h

lemma stepRun_wf (henv : HEnv) (st : Step) (s : IfaceState) (hwf : wf s) :
    wf (stepRun henv s st).1 := by
  obtain ⟨hnd, hbound⟩ := hwf
  have hfresh : s.callId + 1 ∉ s.pendingCalls := by
    intro hin; have := (hbound _ hin).2; omega
  constructor
  · cases st with
    | recvMsg e =>
        rcases recv_shape henv s e with hs | hs
        · simp [stepRun, hs, hnd]
        · simp only [stepRun, hs]
          exact List.Nodup.erase _ hnd
    | timer a b c =>
        rcases timerFire_shape s a b c with hs | hs
        · simp [stepRun, hs, hnd]
        · simp only [stepRun, hs]
          exact List.Nodup.erase _ hnd
    | doEmit a b => simp [stepRun, emit_fst, hnd]
    | doCall a b c d =>
        rcases call_shape s a b c d with hs | hs | hs
        · simp [stepRun, hs, hnd]
        · simp only [stepRun, hs]
          simp [List.nodup_append, hnd, hfresh]
        · simp [stepRun, hs, hnd]
    | doOn a b c => simp [stepRun, (onEvt_frame s a b c 0).1, hnd]
    | doOff a b => simp [stepRun, (off_frame s a b).1, hnd]
    | doDestroy =>
        rcases destroy_shape s with hs | hs <;> simp [stepRun, hs, hnd]
  · intro i hi
    rcases stepRun_pending_new henv st s i hi with h | h
    · have hb := hbound i h
      exact ⟨hb.1, le_trans hb.2 (stepRun_callId_mono henv st s)⟩
    · exact ⟨by omega, by omega⟩

lemma call_eq_destroyed (s : IfaceState) (ev : EvArg) (d : Option Nat) (t : Nat)
    (ok : Bool) (h : s.isDestroyed = true) :
    call s ev d t ok = (s, [Output.rejectNow "ibox: Instance destroyed"]) := by
  simp [call, h]

lemma call_eq_busy (s : IfaceState) (ev : EvArg) (d : Option Nat) (t : Nat)
    (ok : Bool) (hD : s.isDestroyed = false)
    (hcap : MAX_PENDING_CALLS ≤ s.pendingCalls.length) :
    call s ev d t ok = (s, [Output.rejectNow "ibox: Busy"]) := by
  simp [call, hD, hcap]

lemma call_eq_invalid (s : IfaceState) (ev : EvArg) (d : Option Nat) (t : Nat)
    (ok : Bool) (m : String) (hD : s.isDestroyed = false)
    (hcap : s.pendingCalls.length < MAX_PENDING_CALLS)
    (hv : validateEvent ev = .error m) :
    call s ev d t ok = (s, [Output.threw m]) := by
  simp [call, hD, Nat.not_le.mpr hcap, hv]

lemma call_eq_send (s : IfaceState) (ev : EvArg) (d : Option Nat) (t : Nat)
    (r : String) (hD : s.isDestroyed = false)
    (hcap : s.pendingCalls.length < MAX_PENDING_CALLS)
    (hv : validateEvent ev = .ok r) :
    call s ev d t true =
      (⟨s.handlers, s.pendingCalls ++ [s.callId + 1], s.callId + 1, s.isDestroyed⟩,
       [Output.post { event := some (evString ev), data := d,
                      iboxId := some (s.callId + 1) }]) := by
  simp [call, hD, Nat.not_le.mpr hcap, hv]

lemma call_eq_sendFail (s : IfaceState) (ev : EvArg) (d : Option Nat) (t : Nat)
    (r : String) (hD : s.isDestroyed = false)
    (hcap : s.pendingCalls.length < MAX_PENDING_CALLS)
    (hv : validateEvent ev = .ok r) :
    call s ev d t false =
      (⟨s.handlers, s.pendingCalls, s.callId + 1, s.isDestroyed⟩,
       [Output.clearTimer (s.callId + 1),
        Output.settle (s.callId + 1) (.rejected "ibox: Send failed")]) := by
  simp [call, hD, Nat.not_le.mpr hcap, hv]

lemma destroy_eq_noop (s : IfaceState) (h : s.isDestroyed = true) :
    destroy s = (s, []) := by
  simp [destroy, h]

lemma destroy_eq_live (s : IfaceState) (h : s.isDestroyed = false) :
    destroy s = (⟨[], [], s.callId, true⟩,
      Output.portClose :: destroySettles s.pendingCalls) := by
  simp [destroy, h]

/-- Characterisation of settlements in one step: a call id is settled
exactly when its entry leaves the pending-call table, except for the
send-failure path of call, which settles the freshly allocated id within
the same synchronous block. -/
lemma stepRun_settle_count (henv : HEnv) (st : Step) (s : IfaceState) (id : Nat)
    (hwf : wf s) :
    settleCount id (stepRun henv s st).2 =
      (if id ∈ s.pendingCalls ∧ id ∉ (stepRun henv s st).1.pendingCalls then 1
       else 0) +
      (if newSettled st s = some id then 1 else 0) := by
  obtain ⟨hnd, hbound⟩ := hwf
  cases st with
  | recvMsg e =>
      by_cases hD : s.isDestroyed = true
      · simp [stepRun, recv, hD, settleCount, newSettled]
      · by_cases hres : truthyN e.iboxResId = true ∧
            e.iboxResId.getD 0 ∈ s.pendingCalls
        · have hfst : (stepRun henv s (Step.recvMsg e)).1.pendingCalls =
              s.pendingCalls.erase (e.iboxResId.getD 0) := by
            simp only [stepRun]
            unfold recv
            rw [if_neg (by simp [hD]), if_pos hres]
          have hsnd : settleCount id (stepRun henv s (Step.recvMsg e)).2 =
              if e.iboxResId.getD 0 = id then 1 else 0 := by
            simp only [stepRun]
            unfold recv
            rw [if_neg (by simp [hD]), if_pos hres]
            by_cases herr : truthyS e.iboxError = true <;>
              simp [herr, settleCount, settleWeight]
          rw [hsnd, hfst]
          by_cases hid : e.iboxResId.getD 0 = id
          · rw [hid] at hres ⊢
            have h2 : id ∉ s.pendingCalls.erase id := not_mem_erase_self _ _ hnd
            simp [hres.2, h2, newSettled]
          · have hiff : ¬(id ∈ s.pendingCalls ∧
                id ∉ s.pendingCalls.erase (e.iboxResId.getD 0)) := by
              rintro ⟨hin, hout⟩
              exact hout ((List.mem_erase_of_ne fun h => hid h.symm).mpr hin)
            simp [hid, hiff, newSettled]
        · by_cases hev : truthyS e.event = true ∧
              regHas s.handlers (e.event.getD "") = true
          · have hfst : (stepRun henv s (Step.recvMsg e)).1 = s := by
              simp only [stepRun]
              unfold recv
              rw [if_neg (by simp [hD]), if_neg hres, if_pos hev]
              exact recvEvent_fst henv s e _
            have hsnd : settleCount id (stepRun henv s (Step.recvMsg e)).2 = 0 := by
              simp only [stepRun]
              unfold recv
              rw [if_neg (by simp [hD]), if_neg hres, if_pos hev]
              exact recvEvent_settle henv s e _ id
            rw [hsnd, hfst]
            simp [newSettled]
          · have hstep : stepRun henv s (Step.recvMsg e) = (s, []) := by
              simp only [stepRun]
              unfold recv
              rw [if_neg (by simp [hD]), if_neg hres, if_neg hev]
            rw [hstep]
            simp [settleCount, newSettled]
  | timer id2 t ev =>
      by_cases hm : id2 ∈ s.pendingCalls
      · have hstep : stepRun henv s (Step.timer id2 t ev) =
            ({ s with pendingCalls := s.pendingCalls.erase id2 },
             [Output.settle id2 (.rejected ("ibox: Timeout [" ++ ev ++ "] after "
               ++ toString t ++ "ms"))]) := by
          simp only [stepRun]
          unfold timerFire
          rw [if_pos hm]
        rw [hstep]
        by_cases hid : id2 = id
        · rw [hid] at hm ⊢
          have h2 : id ∉ s.pendingCalls.erase id := not_mem_erase_self _ _ hnd
          simp [hm, h2, settleCount, settleWeight, newSettled]
        · have hiff : ¬(id ∈ s.pendingCalls ∧
              id ∉ s.pendingCalls.erase id2) := by
            rintro ⟨hin, hout⟩
            exact hout ((List.mem_erase_of_ne fun h => hid h.symm).mpr hin)
          simp [hid, hiff, settleCount, settleWeight, newSettled]
      · have hstep : stepRun henv s (Step.timer id2 t ev) = (s, []) := by
          simp only [stepRun]
          unfold timerFire
          rw [if_neg hm]
        rw [hstep]
        simp [settleCount, newSettled]
  | doEmit ev d =>
      simp only [stepRun]
      rw [emit_settle s ev d id]
      simp [emit_fst, newSettled]
  | doOn ev c cb =>
      simp only [stepRun]
      rw [(onEvt_frame s ev c cb id).2.2.2]
      simp [(onEvt_frame s ev c cb id).1, newSettled]
  | doOff ev cb =>
      simp only [stepRun]
      have h0 : settleCount id (off s ev cb).2 = 0 := by rw [off_snd]; rfl
      rw [h0]
      simp [(off_frame s ev cb).1, newSettled]
  | doCall ev d t ok =>
      simp only [stepRun]
      by_cases hD : s.isDestroyed = true
      · have hns : newSettled (Step.doCall ev d t ok) s = none := by
          cases ok <;> simp [newSettled, hD]
        simp only [call_eq_destroyed s ev d t ok hD, hns]
        simp [settleCount, settleWeight]
      · have hD2 : s.isDestroyed = false := by simpa using hD
        by_cases hcap : MAX_PENDING_CALLS ≤ s.pendingCalls.length
        · have hns : newSettled (Step.doCall ev d t ok) s = none := by
            cases ok <;> simp [newSettled, Nat.not_lt.mpr hcap]
          simp only [call_eq_busy s ev d t ok hD2 hcap, hns]
          simp [settleCount, settleWeight]
        · have hcap2 : s.pendingCalls.length < MAX_PENDING_CALLS :=
            Nat.lt_of_not_le hcap
          cases hv : validateEvent ev with
          | error m =>
              have hns : newSettled (Step.doCall ev d t ok) s = none := by
                cases ok <;> simp [newSettled, hv, Except.isOk, Except.toBool]
              simp only [call_eq_invalid s ev d t ok m hD2 hcap2 hv, hns]
              simp [settleCount, settleWeight]
          | ok r =>
              cases ok with
              | true =>
                  have hns : newSettled (Step.doCall ev d t true) s = none := rfl
                  simp only [call_eq_send s ev d t r hD2 hcap2 hv, hns]
                  by_cases hidin : id ∈ s.pendingCalls <;>
                    simp [settleCount, settleWeight, hidin]
              | false =>
                  have hns : newSettled (Step.doCall ev d t false) s =
                      some (s.callId + 1) := by
                    simp [newSettled, hD2, hcap2, hv, Except.isOk, Except.toBool]
                  simp only [call_eq_sendFail s ev d t r hD2 hcap2 hv, hns]
                  by_cases hid : s.callId + 1 = id <;>
                    simp [settleCount, settleWeight, hid]
  | doDestroy =>
      simp only [stepRun]
      by_cases hD : s.isDestroyed = true
      · simp only [destroy_eq_noop s hD, newSettled]
        simp [settleCount]
      · have hD2 : s.isDestroyed = false := by simpa using hD
        simp only [destroy_eq_live s hD2, newSettled]
        simp [settleCount_cons, settleWeight,
          settleCount_destroySettles s.pendingCalls id hnd]

lemma dead_step (henv : HEnv) (st : Step) (s : IfaceState) (id : Nat)
    (hwf : wf s) (hd : dead s id) :
    settleCount id (stepRun henv s st).2 = 0 ∧ dead (stepRun henv s st).1 id := by
  obtain ⟨hnotin, hle⟩ := hd
  constructor
  · rw [stepRun_settle_count henv st s id hwf]
    have h1 : ¬(id ∈ s.pendingCalls ∧
        id ∉ (stepRun henv s st).1.pendingCalls) := fun h => hnotin h.1
    have h2 : ¬(newSettled st s = some id) := by
      intro h
      have := newSettled_eq st s id h
      omega
    simp [h1, h2]
  · constructor
    · intro hin
      rcases stepRun_pending_new henv st s id hin with h | h
      · exact hnotin h
      · omega
    · exact le_trans hle (stepRun_callId_mono henv st s)

lemma dead_trace (henv : HEnv) (ts : List Step) (s : IfaceState) (id : Nat)
    (hwf : wf s) (hd : dead s id) :
    settleCount id (runTrace henv s ts).2 = 0 := by
  induction ts generalizing s with
  | nil => rfl
  | cons st rest ih =>
      have h1 := dead_step henv st s id hwf hd
      have hwf2 := stepRun_wf henv st s hwf
      simp [runTrace, settleCount_append, h1.1, ih _ hwf2 h1.2]

lemma pending_trace (henv : HEnv) (ts : List Step) (s : IfaceState) (id : Nat)
    (hwf : wf s) (hmem : id ∈ s.pendingCalls) (halive : s.isDestroyed = false)
    (htrig : (∃ t ev, Step.timer id t ev ∈ ts) ∨ Step.doDestroy ∈ ts) :
    settleCount id (runTrace henv s ts).2 = 1 := by
  induction ts generalizing s with
  | nil =>
      rcases htrig with ⟨t, ev, h⟩ | h <;> simp at h
  | cons st rest ih =>
      have hwf2 := stepRun_wf henv st s hwf
      have hcount := stepRun_settle_count henv st s id hwf
      have hns : ¬(newSettled st s = some id) := by
        intro h
        have := newSettled_eq st s id h
        have := (hwf.2 id hmem).2
        omega
      by_cases hrem : id ∈ (stepRun henv s st).1.pendingCalls
      · have hc0 : settleCount id (stepRun henv s st).2 = 0 := by
          rw [hcount]
          simp [hrem, hns]
        have hstd : st ≠ Step.doDestroy := by
          intro h
          subst h
          have hpost : (stepRun henv s Step.doDestroy).1.pendingCalls = [] := by
            simp only [stepRun, destroy_eq_live s halive]
          rw [hpost] at hrem
          simp at hrem
        have halive2 : (stepRun henv s st).1.isDestroyed = false := by
          rw [stepRun_not_destroy henv st s hstd, halive]
        have htrig2 : (∃ t ev, Step.timer id t ev ∈ rest) ∨
            Step.doDestroy ∈ rest := by
          rcases htrig with ⟨t, ev, h⟩ | h
          · rcases List.mem_cons.mp h with h | h
            · exfalso
              rw [← h] at hrem
              simp only [stepRun] at hrem
              unfold timerFire at hrem
              rw [if_pos hmem] at hrem
              exact not_mem_erase_self _ _ hwf.1 hrem
            · exact Or.inl ⟨t, ev, h⟩
          · rcases List.mem_cons.mp h with h | h
            · exact absurd h.symm hstd
            · exact Or.inr h
        simp [runTrace, settleCount_append, hc0,
          ih _ hwf2 hrem halive2 htrig2]
      · have hc1 : settleCount id (stepRun henv s st).2 = 1 := by
          rw [hcount]
          simp [hmem, hrem, hns]
        have hdead : dead (stepRun henv s st).1 id :=
          ⟨hrem, le_trans (hwf.2 id hmem).2 (stepRun_callId_mono henv st s)⟩
        simp [runTrace, settleCount_append, hc1,
          dead_trace henv rest _ id hwf2 hdead]

/-- Claim C1: call settlement happens exactly once, and an entry leaves the
pending-call table exactly at its settlement.  Per step: at most one
settlement of any id occurs; for an id in the table, a settlement happens
in a step exactly when the step removes the entry; a settlement produced by
the dispatcher or by a timer removes precisely that entry from the table
(restoring its pre-call size).  Per trace: a call sent from a live,
non-full instance is settled exactly once along any subsequent step
sequence containing its timer expiry or a destroy — a matching response
arriving earlier settles it and makes the later timer fire a no-op. -/
theorem call_settles_exactly_once :
    (∀ henv st s id, wf s → settleCount id (stepRun henv s st).2 ≤ 1) ∧
    (∀ henv st s id, wf s → id ∈ s.pendingCalls →
        (settleCount id (stepRun henv s st).2 = 1 ↔
          id ∉ (stepRun henv s st).1.pendingCalls)) ∧
    (∀ henv s e id, wf s → settleCount id (recv henv s e).2 = 1 →
        (recv henv s e).1.pendingCalls = s.pendingCalls.erase id) ∧
    (∀ s id2 t ev id, wf s → settleCount id (timerFire s id2 t ev).2 = 1 →
        (timerFire s id2 t ev).1.pendingCalls = s.pendingCalls.erase id) ∧
    (∀ henv s ev d t ts, wf s → s.isDestroyed = false →
        s.pendingCalls.length < MAX_PENDING_CALLS →
        (validateEvent ev).isOk = true →
        ∀ t2 ev2, (Step.timer (s.callId + 1) t2 ev2 ∈ ts ∨ Step.doDestroy ∈ ts) →
        settleCount (s.callId + 1)
          (runTrace henv (call s ev d t true).1 ts).2 = 1) := by
  refine ⟨?_, ?_, ?_, ?_, ?_⟩
  · intro henv st s id hwf
    rw [stepRun_settle_count henv st s id hwf]
    by_cases h1 : id ∈ s.pendingCalls ∧ id ∉ (stepRun henv s st).1.pendingCalls
    · have h2 : ¬(newSettled st s = some id) := by
        intro h
        have := newSettled_eq st s id h
        have := (hwf.2 id h1.1).2
        omega
      simp [h1, h2]
    · simp only [if_neg h1]
      split_ifs <;> omega
  · intro henv st s id hwf hmem
    rw [stepRun_settle_count henv st s id hwf]
    have h2 : ¬(newSettled st s = some id) := by
      intro h
      have := newSettled_eq st s id h
      have := (hwf.2 id hmem).2
      omega
    by_cases hp : id ∉ (stepRun henv s st).1.pendingCalls <;>
      simp [h2, hmem, hp]
  · intro henv s e id hwf h1
    by_cases hD : s.isDestroyed = true
    · rw [show recv henv s e = (s, []) by simp [recv, hD]] at h1
      simp [settleCount] at h1
    · by_cases hres : truthyN e.iboxResId = true ∧
          e.iboxResId.getD 0 ∈ s.pendingCalls
      · have hfst : (recv henv s e).1.pendingCalls =
            s.pendingCalls.erase (e.iboxResId.getD 0) := by
          unfold recv
          rw [if_neg (by simp [hD]), if_pos hres]
        have hid : e.iboxResId.getD 0 = id := by
          by_contra hne
          have hsnd : settleCount id (recv henv s e).2 =
              if e.iboxResId.getD 0 = id then 1 else 0 := by
            unfold recv
            rw [if_neg (by simp [hD]), if_pos hres]
            by_cases herr : truthyS e.iboxError = true <;>
              simp [herr, settleCount, settleWeight]
          rw [hsnd, if_neg hne] at h1
          exact absurd h1 (by omega)
        rw [hfst, hid]
      · by_cases hev : truthyS e.event = true ∧
            regHas s.handlers (e.event.getD "") = true
        · have hsnd : settleCount id (recv henv s e).2 = 0 := by
            unfold recv
            rw [if_neg (by simp [hD]), if_neg hres, if_pos hev]
            exact recvEvent_settle henv s e _ id
          rw [hsnd] at h1
          exact absurd h1 (by omega)
        · rw [show recv henv s e = (s, []) by
            unfold recv
            rw [if_neg (by simp [hD]), if_neg hres, if_neg hev]] at h1
          simp [settleCount] at h1
  · intro s id2 t ev id hwf h1
    by_cases hm : id2 ∈ s.pendingCalls
    · have hstep : timerFire s id2 t ev =
          ({ s with pendingCalls := s.pendingCalls.erase id2 },
           [Output.settle id2 (.rejected ("ibox: Timeout [" ++ ev ++ "] after "
             ++ toString t ++ "ms"))]) := by
        unfold timerFire
        rw [if_pos hm]
      rw [hstep] at h1 ⊢
      have hid : id2 = id := by
        by_contra hne
        simp [settleCount, settleWeight, hne] at h1
      rw [hid]
    · rw [show timerFire s id2 t ev = (s, []) by
        unfold timerFire; rw [if_neg hm]] at h1
      simp [settleCount] at h1
  · intro henv s ev d t ts hwf halive hcap hok t2 ev2 htrig
    obtain ⟨r, hv⟩ : ∃ r, validateEvent ev = .ok r := by
      cases hv : validateEvent ev with
      | error m => rw [hv] at hok; simp [Except.isOk, Except.toBool] at hok
      | ok r => exact ⟨r, rfl⟩
    have hpost := call_eq_send s ev d t r halive hcap hv
    have hfresh : s.callId + 1 ∉ s.pendingCalls := by
      intro hin
      have := (hwf.2 _ hin).2
      omega
    have hpost1 : (call s ev d t true).1 =
        ⟨s.handlers, s.pendingCalls ++ [s.callId + 1], s.callId + 1,
         s.isDestroyed⟩ := by
      rw [hpost]
    have hwf2 : wf (call s ev d t true).1 := by
      rw [hpost1]
      constructor
      · show (s.pendingCalls ++ [s.callId + 1]).Nodup
        simp [List.nodup_append, hwf.1, hfresh]
      · intro i hi
        replace hi : i ∈ s.pendingCalls ++ [s.callId + 1] := hi
        show 1 ≤ i ∧ i ≤ s.callId + 1
        rcases List.mem_append.mp hi with h | h
        · have := hwf.2 i h
          omega
        · simp at h
          omega
    have hmem2 : s.callId + 1 ∈ (call s ev d t true).1.pendingCalls := by
      rw [hpost1]
      show s.callId + 1 ∈ s.pendingCalls ++ [s.callId + 1]
      simp
    have halive2 : (call s ev d t true).1.isDestroyed = false := by
      rw [hpost1]
      exact halive
    refine pending_trace henv ts _ _ hwf2 hmem2 halive2 ?_
    rcases htrig with h | h
    · exact Or.inl ⟨t2, ev2, h⟩
    · exact Or.inr h

/-- Witness for call_settles_exactly_once: a live instance with one pending
call, settled exactly once when its timer fires after the call. -/
theorem call_settles_exactly_once_witness :
    settleCount 1 (stepRun hEnv0 ⟨[], [1], 1, false⟩ (Step.timer 1 50 "ping")).2 ≤ 1 ∧
    (settleCount 1 (stepRun hEnv0 ⟨[], [1], 1, false⟩ (Step.timer 1 50 "ping")).2 = 1 ↔
      1 ∉ (stepRun hEnv0 ⟨[], [1], 1, false⟩ (Step.timer 1 50 "ping")).1.pendingCalls) ∧
    (recv hEnv0 ⟨[], [1], 1, false⟩ ⟨none, some 5, none, some 1, none⟩).1.pendingCalls =
      ([1] : List Nat).erase 1 ∧
    (timerFire ⟨[], [1], 1, false⟩ 1 50 "ping").1.pendingCalls =
      ([1] : List Nat).erase 1 ∧
    settleCount (initState.callId + 1)
      (runTrace hEnv0 (call initState (.str "ping") none 50 true).1
        [Step.timer 1 50 "ping"]).2 = 1 :=
  ⟨call_settles_exactly_once.1 hEnv0 (Step.timer 1 50 "ping") ⟨[], [1], 1, false⟩ 1
     ⟨by decide, by decide⟩,
   call_settles_exactly_once.2.1 hEnv0 (Step.timer 1 50 "ping") ⟨[], [1], 1, false⟩ 1
     ⟨by decide, by decide⟩ (by decide),
   call_settles_exactly_once.2.2.1 hEnv0 ⟨[], [1], 1, false⟩
     ⟨none, some 5, none, some 1, none⟩ 1 ⟨by decide, by decide⟩ (by decide),
   call_settles_exactly_once.2.2.2.1 ⟨[], [1], 1, false⟩ 1 50 "ping" 1
     ⟨by decide, by decide⟩ (by decide),
   call_settles_exactly_once.2.2.2.2 hEnv0 initState (.str "ping") none 50
     [Step.timer 1 50 "ping"] ⟨by decide, by decide⟩ rfl (by decide) (by decide)
     50 "ping" (Or.inl (by decide))⟩

/-- Claim C8: host fails immediately when no embeddable child surface is
available (nothing armed, nothing subscribed); while waiting it discards
every bus message whose origin mismatches the expected origin (unless
wildcard) or whose payload is not the ready sentinel; the overall timer is
armed for 15000 ms, and when it fires the promise rejects with the host
timeout error with both the timer and the bus subscription released. -/
theorem host_handshake_contract :
    (∀ t, (hostStart false t).1.result = .rejectedWith "ibox: No iframe" ∧
        (hostStart false t).1.subscribed = false ∧
        (hostStart false t).1.timerActive = false) ∧
    (∀ t, HOut.setTimer 15000 ∈ (hostStart true t).2) ∧
    (∀ st o p tr, (st.targetOrigin ≠ "*" ∧ o ≠ st.targetOrigin) ∨ p ≠ MSG_READY →
        hostBus st o p tr = (st, [])) ∧
    (∀ st, st.timerActive = true →
        hostTimeoutFire st =
          (⟨st.targetOrigin, false, false,
            .rejectedWith "ibox: Host connection timeout"⟩, [])) := by
  refine ⟨?_, ?_, ?_, ?_⟩
  · intro t; by_cases h : t = "" ∨ t = "*" <;> simp [hostStart, h]
  · intro t; by_cases h : t = "" ∨ t = "*" <;> simp [hostStart, h, HANDSHAKE_TIMEOUT]
  · intro st o p tr h
    by_cases hs : st.subscribed = false
    · simp [hostBus, hs]
    · by_cases hm : st.targetOrigin ≠ "*" ∧ o ≠ st.targetOrigin
      · simp [hostBus, hs, hm]
      · have hp : p ≠ MSG_READY := by tauto
        simp [hostBus, hs, hm, hp]
  · intro st h; simp [hostTimeoutFire, h]

/-- Witness for host_handshake_contract at concrete inputs: a missing child
surface, an origin-mismatched message, a wrong payload, and a timer fire. -/
theorem host_handshake_contract_witness :
    (hostStart false "https://a.example").1.result = .rejectedWith "ibox: No iframe" ∧
    HOut.setTimer 15000 ∈ (hostStart true "https://a.example").2 ∧
    hostBus hostWaiting "https://evil.example" MSG_READY none = (hostWaiting, []) ∧
    hostBus hostWaiting "https://a.example" "nope" none = (hostWaiting, []) ∧
    hostTimeoutFire hostWaiting =
      (⟨"https://a.example", false, false,
        .rejectedWith "ibox: Host connection timeout"⟩, []) :=
  ⟨(host_handshake_contract.1 "https://a.example").1,
   host_handshake_contract.2.1 "https://a.example",
   host_handshake_contract.2.2.1 hostWaiting "https://evil.example" MSG_READY none
     (Or.inl ⟨by decide, by decide⟩),
   host_handshake_contract.2.2.1 hostWaiting "https://a.example" "nope" none
     (Or.inr (by decide)),
   (host_handshake_contract.2.2.2 hostWaiting rfl).trans rfl⟩

/-- Claim C9: a throwing broadcast attempt during a retry tick is swallowed
per attempt — the tick only increments the attempt counter, keeps the
interval, the timer and the subscription alive, settles nothing and
propagates nothing — and the tick that pushes the attempt count past the
60-attempt bound (the interval being spaced at 200 ms) releases the
interval, the overall timer and the bus subscription and rejects with the
handshake-failed error, without broadcasting. -/
theorem client_retry_contract :
    (∀ st, st.intervalActive = true → st.attempts + 1 ≤ MAX_ATTEMPTS →
        clientTick st false = ({ st with attempts := st.attempts + 1 }, [])) ∧
    (∀ st sendOk, st.intervalActive = true → MAX_ATTEMPTS < st.attempts + 1 →
        clientTick st sendOk =
          (⟨st.hostOrigin, st.attempts + 1, false, false, false,
            .rejectedWith "ibox: Handshake failed"⟩, [])) ∧
    (∀ o, HOut.setRetry 200 ∈ (clientStart o).2) ∧
    MAX_ATTEMPTS = 60 := by
  refine ⟨?_, ?_, ?_, rfl⟩
  · intro st h1 h2
    simp [clientTick, h1, Nat.not_lt.mpr h2]
  · intro st sendOk h1 h2
    simp [clientTick, h1, h2]
  · intro o; by_cases h : o = "" ∨ o = "*" <;> simp [clientStart, h, RETRY_SPACING]

/-- Witness for client_retry_contract: a failed broadcast on the first tick
and the tick after the sixtieth attempt. -/
theorem client_retry_contract_witness :
    clientTick clientWaiting false =
      (⟨"https://a.example", 1, true, true, true, .pending⟩, []) ∧
    clientTick clientAtBound true =
      (⟨"https://a.example", 61, false, false, false,
        .rejectedWith "ibox: Handshake failed"⟩, []) ∧
    HOut.setRetry 200 ∈ (clientStart "https://a.example").2 :=
  ⟨(client_retry_contract.1 clientWaiting rfl (by decide)).trans rfl,
   (client_retry_contract.2.1 clientAtBound true rfl (by decide)).trans rfl,
   client_retry_contract.2.2.1 "https://a.example"⟩

end IBox
